import Mathlib

/-!
Verification of the dj_engine Action Resolution Engine.

This file is a shallow embedding, in Lean 4, of the parts of the
dj_engine Python repository that the verified properties are about:

* `src/dj_engine/constants.py`   (SealColor, PlayerColor, GamePhase)
* `src/dj_engine/player.py`      (WorkerState, PlayerState)
* `src/dj_engine/game_state.py`  (GameState)
* `src/dj_engine/exceptions.py`  (GameError / InvalidActionError /
  InsufficientResourcesError hierarchy, modelled by `EngineError` and
  `errorClass`)
* `src/dj_engine/engine_utils.py` (can_afford, spend_coins, gain_coins,
  spend_temp_knowledge, check_wax_seal_req, calculate_placement_penalty)
* `src/dj_engine/actions/academy.py` (perform_academy_action)
* `src/dj_engine/actions/reserve_turn_order.py` (perform_reserve_turn_order)

Modelling conventions:

* Python `dict`s are embedded as association lists (`List (k × v)`), with
  `dictLookup` / `dictGetD` / `dictSet` / `dictSetdefaultAppend` mirroring
  `d[k]` / `d.get(k, default)` / `d[k] = v` / `d.setdefault(k, []).append(x)`.
  A Python dict keeps the original position of an updated key, which
  `dictSet` reproduces.
* Python `int` quantities that take part in subtraction (coins, temporary
  knowledge, costs) are `Int`; quantities that are counts or indices
  (seal counts, slot counts, list indices) are `Nat`.
* Raising an exception is embedded as returning `Except.error (e, s)`
  where `s` is the game state as it stands at the raise site; a function
  that returns normally yields `Except.ok` with the final state.  This
  makes the atomicity property (rejection leaves the state untouched)
  expressible: the state paired with the error must equal the input state.
* In Python the locals `player_state` and `worker` are aliases into
  `game_state`; an in-place mutation of them is immediately visible in
  `game_state`.  The embedding makes each such mutation explicit by
  writing the updated copy back into the enclosing structure at the same
  point in the control flow, so the threaded state agrees with the Python
  heap at every raise site.
* `WorkerState` in `player.py` does not declare an `is_placed` field, but
  `academy.py` and `reserve_turn_order.py` read and write
  `worker.is_placed`, the tests construct workers with `is_placed=False`,
  and the spec lists it as a Worker State field; the embedding therefore
  includes it (default `false`).
* Rule-table record fields that the embedded functions never read
  (`base_actions`, `distinction_bonuses`, and the unread tables inside
  `AllGameData`) are omitted from the embedded records.
-/

/-! ## Association-list dictionaries -/

/-- `d.get(k, default)`-style lookup: first matching key wins, like a dict. -/
def dictLookup {α β : Type} [DecidableEq α] : List (α × β) → α → Option β
  | [], _ => none
  | (k', v) :: rest, k => if k' = k then some v else dictLookup rest k

/-- `d.get(k, default)`. -/
def dictGetD {α β : Type} [DecidableEq α] (l : List (α × β)) (k : α) (d : β) : β :=
  (dictLookup l k).getD d

/-- `d[k] = v`: update the first occurrence of `k` in place, else append. -/
def dictSet {α β : Type} [DecidableEq α] : List (α × β) → α → β → List (α × β)
  | [], k, v => [(k, v)]
  | (k', v') :: rest, k, v =>
    if k' = k then (k, v) :: rest else (k', v') :: dictSet rest k v

/-- `d.setdefault(k, []).append(x)`. -/
def dictSetdefaultAppend {α β : Type} [DecidableEq α]
    (l : List (α × List β)) (k : α) (x : β) : List (α × List β) :=
  match dictLookup l k with
  | some seq => dictSet l k (seq ++ [x])
  | none => l ++ [(k, [x])]

/-- `next((w for w in l if p w), None)` together with the position of the
found element, which the embedding needs in order to write the mutated
element back (in Python the result is an alias into the list). -/
def findIdxAndElem {α : Type} (p : α → Bool) : List α → Option (Nat × α)
  | [] => none
  | x :: xs =>
    if p x then some (0, x)
    else (findIdxAndElem p xs).map (fun r => (r.1 + 1, r.2))

/-- `g[r][c]` on a list-of-lists, `none` when either index is out of range
(the `IndexError` case). -/
def gridGet? {α : Type} (g : List (List α)) (r c : Nat) : Option α :=
  match g[r]? with
  | none => none
  | some rowL => rowL[c]?

/-- `g[r][c] = v` on a list-of-lists (callers only use it at coordinates
whose read already succeeded). -/
def gridSet {α : Type} (g : List (List α)) (r c : Nat) (v : α) : List (List α) :=
  match g[r]? with
  | none => g
  | some rowL => g.set r (rowL.set c v)

/-! ## constants.py -/

/-- `SealColor` from constants.py. -/
inductive SealColor
  | BLUE
  | GREEN
  | YELLOW
  | RED
  | SPECIAL
  deriving DecidableEq, Repr

/-- `PlayerColor` from constants.py. -/
inductive PlayerColor
  | BLUE
  | GREEN
  | YELLOW
  | RED
  deriving DecidableEq, Repr

/-- `GamePhase` from constants.py. -/
inductive GamePhase
  | SETUP
  | ROUND_ACTION
  | ROUND_TURN_ORDER
  | ROUND_REWARD
  | ROUND_CLEANUP
  | GAME_END_SCORING
  | GAME_OVER
  deriving DecidableEq, Repr

/-! ## player.py -/

/-- `WorkerState` from player.py (plus the `is_placed` field used by the
action handlers; see the header comment). -/
structure WorkerState where
  worker_id : Nat
  row_index : Nat
  seals : List (SealColor × Nat) := []
  seal_slots_filled : Nat := 0
  assigned_crew_card_id : Option Nat := none
  is_placed : Bool := false
  deriving DecidableEq, Repr

/-- `PlayerState` from player.py.  Payload types of fields the embedded
actions never read are simplified to identifiers (`Nat` for tile/card
ids); the fields themselves are all kept so that frame properties are
meaningful. -/
structure PlayerState where
  player_index : Nat
  player_color : PlayerColor
  coins : Int := 0
  temporary_knowledge : Int := 0
  vp_marker_value : Int := 0
  workers : List WorkerState := []
  ship_position : String := "O0"
  evolution_marker_position : Int := 0
  explorers_available : Int := 3
  explorers_placed : List (String × String) := []
  tents_available : Int := 5
  tents_placed : List String := []
  stamps_available : List (Nat × Int) := [(0, 4), (1, 4), (2, 4)]
  researched_specimens : List String := []
  objective_tiles_in_reserve : List Nat := []
  objective_slots_filled : List (String × Option Nat) := []
  crew_cards_assigned_starting : List Nat := []
  lenses_available : Int := 6
  lenses_placed : List String := []
  beagle_goals_scored_vp : List (Nat × Int) := []
  has_free_academy_scroll_penalty_waiver : Bool := false
  extra_book_multiplier : Int := 0
  diary_penalty_reduction : Int := 0
  max_lag_penalty : Option Int := none
  deriving DecidableEq, Repr

/-! ## game_state.py -/

/-- `GameState` from game_state.py.  Payload types of fields the embedded
actions never read are simplified to identifiers. -/
structure GameState where
  players : List PlayerState := []
  current_round : Int := 1
  current_phase : GamePhase := GamePhase.ROUND_ACTION
  current_player_index : Nat := 0
  turn_order : List Nat := []
  main_board_workers : List (String × List (Nat × Nat)) := []
  available_seals : List (SealColor × Nat) := []
  academy_seals : List (List (Option SealColor)) := []
  museum_state : List ((String × Nat) × Option String) := []
  museum_coins_taken : List String := []
  placed_specimens : List (String × Option String) := []
  hms_beagle_position : String := "O0"
  objective_deck_silver : List Nat := []
  objective_deck_gold : List Nat := []
  objective_display_silver : List Nat := []
  objective_display_gold : List Nat := []
  correspondence_tiles_in_play : List Nat := []
  correspondence_stamps : List (Nat × List (Nat × Int)) := []
  used_stamps : List (PlayerColor × Int) := []
  beagle_goals_in_play : List Nat := []
  beagle_goals_completed : List Bool := []
  special_action_tiles_setup : List (String × Nat) := []
  unlocked_locations : List String := []
  first_player_marker_index : Nat := 0
  game_over : Bool := false
  deriving DecidableEq, Repr

/-! ## data_loader.py (the records the academy action reads) -/

/-- `BoardActionLocation` from data_loader.py (read fields only). -/
structure BoardActionLocation where
  id : String
  action_type : String
  diary_type : String
  placement_type : String
  unlock_cost : Option Int := none
  wax_seal_requirements : List (SealColor × Nat) := []
  deriving DecidableEq, Repr

/-- `AcademyScroll` from data_loader.py. -/
structure AcademyScroll where
  id : String
  scroll_row : Nat
  cost : Int
  slots : Nat
  deriving DecidableEq, Repr

/-- `PersonalBoardSealSlot` from data_loader.py (read fields only). -/
structure PersonalBoardSealSlot where
  slot_index : Nat
  placement_cost : Int
  distinction_trigger : Option String := none
  deriving DecidableEq, Repr

/-- `PersonalBoardWorkerRow` from data_loader.py (read fields only). -/
structure PersonalBoardWorkerRow where
  row_index : Nat
  max_seals : Nat
  seal_slots : List PersonalBoardSealSlot := []
  deriving DecidableEq, Repr

/-- `PersonalBoardDefinition` from data_loader.py (read fields only). -/
structure PersonalBoardDefinition where
  board_id : String
  worker_rows : List PersonalBoardWorkerRow := []
  deriving DecidableEq, Repr

/-- `AllGameData` from data_loader.py, restricted to the three tables the
embedded actions read. -/
structure AllGameData where
  main_board_actions : List (String × BoardActionLocation) := []
  academy_scrolls : List (Int × AcademyScroll) := []
  personal_board : Option PersonalBoardDefinition := none
  deriving DecidableEq, Repr

/-! ## exceptions.py

Each raise site of the embedded functions gets its own constructor,
carrying the values interpolated into the Python error message.
`errorClass` mirrors the exception hierarchy of exceptions.py
(`InsufficientResourcesError < InvalidActionError < GameError`) by
recording the most specific class of each raise; uncaught built-in Python
exceptions (IndexError on `players[player_index]`, ValueError in
spend_coins/gain_coins) get their own class. -/

inductive EngineError
  | notPlayersTurn (player_index : Nat)
  | playerIndexOutOfRange (player_index : Nat)
  | workerNotFound (worker_id : Nat) (player_index : Nat)
  | workerAlreadyPlaced (worker_id : Nat)
  | invalidLocationId (location_id : String)
  | notAcademyLocation (location_id : String)
  | invalidScrollRow (row : Int)
  | invalidSealIndex (idx : Int)
  | invalidSealCoordinates (row_idx : Nat) (col_idx : Nat)
  | noSealAvailable (row : Int) (idx : Int)
  | requirementsNotMet (worker_id : Nat) (needed : Int) (has : Int)
  | tempKnowledgeRefused (needed : Int)
  | scrollDataMissing (row : Int)
  | personalBoardMissing
  | workerRowDefMissing (row_index : Nat)
  | sealSlotsFull (worker_id : Nat) (filled : Nat) (max_seals : Nat)
  | sealSlotIndexError (worker_id : Nat) (filled : Nat) (max_seals : Nat)
  | cannotAffordCost (player_index : Nat) (cost : Int) (has : Int)
  | notEnoughTempKnowledge (player_index : Nat) (needed : Int) (has : Int)
  | negativeSpendAmount
  | negativeGainAmount
  deriving DecidableEq, Repr

/-- The exception classes of exceptions.py, plus a class for uncaught
built-in Python exceptions. -/
inductive ErrorClass
  | invalidAction
  | insufficientResources
  | internalGameError
  | pythonBuiltin
  deriving DecidableEq, Repr

/-- The most specific exception class raised at each raise site.
`invalidSealCoordinates` is raised as `InvalidActionError` in academy.py
(despite its "Internal Error" message); the three table-lookup failures
are raised as plain `GameError`. -/
def errorClass : EngineError → ErrorClass
  | .cannotAffordCost _ _ _ => .insufficientResources
  | .notEnoughTempKnowledge _ _ _ => .insufficientResources
  | .scrollDataMissing _ => .internalGameError
  | .personalBoardMissing => .internalGameError
  | .workerRowDefMissing _ => .internalGameError
  | .playerIndexOutOfRange _ => .pythonBuiltin
  | .negativeSpendAmount => .pythonBuiltin
  | .negativeGainAmount => .pythonBuiltin
  | _ => .invalidAction

/-- Whether the raised error is an instance of `InsufficientResourcesError`. -/
def isInsufficientResourcesError (e : EngineError) : Bool :=
  errorClass e = ErrorClass.insufficientResources

/-- Whether the raised error is an instance of `InvalidActionError`
(`InsufficientResourcesError` is a subclass of it). -/
def isInvalidActionError (e : EngineError) : Bool :=
  errorClass e = ErrorClass.invalidAction ∨
    errorClass e = ErrorClass.insufficientResources

/-! ## engine_utils.py -/

/-- `can_afford` from engine_utils.py. -/
def can_afford (player_state : PlayerState) (cost : Int) : Bool :=
  player_state.coins ≥ cost

/-- `spend_coins` from engine_utils.py: raises ValueError on a negative
cost, subtracts only when the cost is positive. -/
def spend_coins (player_state : PlayerState) (cost : Int) :
    Except EngineError PlayerState :=
  if cost < 0 then .error .negativeSpendAmount
  else if cost > 0 then .ok { player_state with coins := player_state.coins - cost }
  else .ok player_state

/-- `gain_coins` from engine_utils.py. -/
def gain_coins (player_state : PlayerState) (amount : Int) :
    Except EngineError PlayerState :=
  if amount < 0 then .error .negativeGainAmount
  else if amount > 0 then .ok { player_state with coins := player_state.coins + amount }
  else .ok player_state

/-- `spend_temp_knowledge` from engine_utils.py.  The Python body is
`pass` (a `TODO: Implement logic` stub), so the function changes nothing:
the player state is returned unmodified. -/
def spend_temp_knowledge (player_state : PlayerState) (_amount : Int) : PlayerState :=
  player_state

/-- `check_wax_seal_req` from engine_utils.py. -/
def check_wax_seal_req (worker : WorkerState)
    (requirements : List (SealColor × Nat))
    (temp_knowledge_available : Int) : Bool × Int :=
  if requirements = [] then (true, 0)
  else
    let temp_knowledge_needed := requirements.foldl
      (fun acc p =>
        let count_possessed : Int := (dictGetD worker.seals p.1 0 : Nat)
        let deficit : Int := (p.2 : Int) - count_possessed
        if 0 < deficit then acc + deficit else acc) 0
    if temp_knowledge_needed ≤ temp_knowledge_available then
      (true, temp_knowledge_needed)
    else (false, 0)

/-- `calculate_placement_penalty` from engine_utils.py.  The Python
function receives the tables wrapped in a dict
`{"main_board_actions": ...}`; the embedding takes the table directly.
The `player_index` parameter is accepted and unused, as in the source. -/
def calculate_placement_penalty (game_state : GameState) (location_id : String)
    (_player_index : Nat)
    (main_board_actions : List (String × BoardActionLocation)) : Int :=
  match dictLookup main_board_actions location_id with
  | none => 0
  | some location_data =>
    if location_data.placement_type ≠ "CIRCULAR_MAGNIFYING_GLASS" then 0
    else
      let occupying_placements := dictGetD game_state.main_board_workers location_id []
      if occupying_placements = [] then 0
      else 3

/-! ## actions/academy.py -/

/-- Section "2. Check Wax Seals Requirement" of `perform_academy_action`
(academy.py lines 99-127), factored out: decides the temporary-knowledge
amount to spend, or the rejection.  On the success path the Python code
leaves `temp_knowledge_spent = 0` when no requirement applies or the
worker meets it directly, and sets it to the needed amount when the
substitute is needed and authorized. -/
def academyRequirementStep (worker : WorkerState) (worker_id : Nat)
    (location_data : BoardActionLocation) (temporary_knowledge : Int)
    (use_temp_knowledge : Bool) : Except EngineError Int :=
  if location_data.wax_seal_requirements ≠ [] then
    let r := check_wax_seal_req worker
      location_data.wax_seal_requirements temporary_knowledge
    if r.1 = false then
      .error (.requirementsNotMet worker_id r.2 temporary_knowledge)
    else if 0 < r.2 then
      if ¬ use_temp_knowledge then .error (.tempKnowledgeRefused r.2)
      else .ok r.2
    else .ok 0
  else .ok 0

/-- `perform_academy_action` from actions/academy.py.

The control flow follows the source section by section:
1. input validation (turn, worker, location, coordinates, seal present),
2. wax-seal requirement check via `check_wax_seal_req`,
3. cost calculation (placement penalty, scroll cost, personal-board slot
   cost, with the slot-full check between the scroll lookup and the slot
   lookup, as in the source),
4. affordability checks,
5. state mutation (spend knowledge, spend coins, place worker, add seal
   to worker, clear the academy grid cell).

The Python statements `worker.is_placed = True`,
`worker.seals[seal] = worker.seals.get(seal, 0) + 1` and
`worker.seal_slots_filled += 1` mutate the worker aliased inside
`player_state.workers`; the embedding performs the same updates on a copy
and writes it back.  No raise can occur between those statements and the
end of the function, so the threaded state agrees with the Python heap at
every raise site. -/
def perform_academy_action (game_state : GameState) (player_index : Nat)
    (worker_id : Nat) (location_id : String) (chosen_scroll_row : Int)
    (chosen_seal_index : Int) (use_temp_knowledge : Bool)
    (all_game_data : AllGameData) :
    Except (EngineError × GameState) GameState :=
  -- 1. Validate Inputs
  if game_state.current_player_index ≠ player_index then
    .error (.notPlayersTurn player_index, game_state)
  else
    match game_state.players[player_index]? with
    | none => .error (.playerIndexOutOfRange player_index, game_state)
    | some player_state =>
      match findIdxAndElem (fun w => w.worker_id = worker_id) player_state.workers with
      | none => .error (.workerNotFound worker_id player_index, game_state)
      | some (widx, worker) =>
        if worker.is_placed then .error (.workerAlreadyPlaced worker_id, game_state)
        else
          match dictLookup all_game_data.main_board_actions location_id with
          | none => .error (.invalidLocationId location_id, game_state)
          | some location_data =>
            if location_data.action_type ≠ "ACADEMY" then
              .error (.notAcademyLocation location_id, game_state)
            else if ¬ (1 ≤ chosen_scroll_row ∧ chosen_scroll_row ≤ 4) then
              .error (.invalidScrollRow chosen_scroll_row, game_state)
            else if ¬ (0 ≤ chosen_seal_index ∧ chosen_seal_index ≤ 2) then
              .error (.invalidSealIndex chosen_seal_index, game_state)
            else
              let row_idx := (chosen_scroll_row - 1).toNat
              let col_idx := chosen_seal_index.toNat
              match gridGet? game_state.academy_seals row_idx col_idx with
              | none => .error (.invalidSealCoordinates row_idx col_idx, game_state)
              | some none =>
                .error (.noSealAvailable chosen_scroll_row chosen_seal_index, game_state)
              | some (some seal_to_take) =>
                -- 2. Check Wax Seals Requirement
                match academyRequirementStep worker worker_id location_data
                    player_state.temporary_knowledge use_temp_knowledge with
                | .error e => .error (e, game_state)
                | .ok temp_knowledge_spent =>
                  -- 3a. Placement Penalty
                  let placement_penalty := calculate_placement_penalty game_state
                    location_id player_index all_game_data.main_board_actions
                  -- 3b. Scroll Cost
                  match dictLookup all_game_data.academy_scrolls chosen_scroll_row with
                  | none => .error (.scrollDataMissing chosen_scroll_row, game_state)
                  | some scroll_data =>
                    let scroll_cost := scroll_data.cost
                    -- 3c. Personal Board Seal Placement Cost
                    match all_game_data.personal_board with
                    | none => .error (.personalBoardMissing, game_state)
                    | some personal_board_def =>
                      match personal_board_def.worker_rows.find?
                          (fun row => row.row_index = worker.row_index) with
                      | none => .error (.workerRowDefMissing worker.row_index, game_state)
                      | some worker_row_def =>
                        if worker.seal_slots_filled ≥ worker_row_def.max_seals then
                          .error (.sealSlotsFull worker_id worker.seal_slots_filled
                            worker_row_def.max_seals, game_state)
                        else
                          match worker_row_def.seal_slots[worker.seal_slots_filled]? with
                          | none => .error (.sealSlotIndexError worker_id
                              worker.seal_slots_filled worker_row_def.max_seals, game_state)
                          | some seal_slot_def =>
                            let personal_board_cost := seal_slot_def.placement_cost
                            -- 3d. Total Cost
                            let total_cost := placement_penalty + scroll_cost + personal_board_cost
                            -- 4. Check Affordability
                            if ¬ can_afford player_state total_cost then
                              .error (.cannotAffordCost player_index total_cost
                                player_state.coins, game_state)
                            else if player_state.temporary_knowledge < temp_knowledge_spent then
                              .error (.notEnoughTempKnowledge player_index temp_knowledge_spent
                                player_state.temporary_knowledge, game_state)
                            else
                              -- 5a. Spend Costs
                              let ps1 := if 0 < temp_knowledge_spent then
                                  spend_temp_knowledge player_state temp_knowledge_spent
                                else player_state
                              let gs1 := { game_state with
                                players := game_state.players.set player_index ps1 }
                              match spend_coins ps1 total_cost with
                              | .error e => .error (e, gs1)
                              | .ok ps2 =>
                                let gs2 := { gs1 with
                                  players := gs1.players.set player_index ps2 }
                                -- 5b. Place Worker
                                let gs3 := { gs2 with
                                  main_board_workers := dictSetdefaultAppend
                                    gs2.main_board_workers location_id (player_index, worker_id) }
                                -- 5c. Add Seal to Worker
                                let worker2 := { worker with
                                  is_placed := true
                                  seals := dictSet worker.seals seal_to_take
                                    (dictGetD worker.seals seal_to_take 0 + 1)
                                  seal_slots_filled := worker.seal_slots_filled + 1 }
                                let ps3 := { ps2 with
                                  workers := ps2.workers.set widx worker2 }
                                let gs4 := { gs3 with
                                  players := gs3.players.set player_index ps3 }
                                -- 5d. Remove Seal from Academy Board
                                let gs5 := { gs4 with
                                  academy_seals := gridSet gs4.academy_seals row_idx col_idx none }
                                -- 6. Return State
                                .ok gs5

/-! ## actions/reserve_turn_order.py -/

/-- `perform_reserve_turn_order` from actions/reserve_turn_order.py. -/
def perform_reserve_turn_order (game_state : GameState) (player_index : Nat)
    (worker_id : Nat) : Except (EngineError × GameState) GameState :=
  if game_state.current_player_index ≠ player_index then
    .error (.notPlayersTurn player_index, game_state)
  else
    match game_state.players[player_index]? with
    | none => .error (.playerIndexOutOfRange player_index, game_state)
    | some player_state =>
      match findIdxAndElem (fun w => w.worker_id = worker_id) player_state.workers with
      | none => .error (.workerNotFound worker_id player_index, game_state)
      | some (widx, worker) =>
        if worker.is_placed then .error (.workerAlreadyPlaced worker_id, game_state)
        else
          let location_id := "RESERVE_TURN_ORDER"
          -- Place worker on board
          let gs1 := { game_state with
            main_board_workers := dictSetdefaultAppend game_state.main_board_workers
              location_id (player_index, worker_id) }
          -- Mark worker as placed in player state
          let worker1 := { worker with is_placed := true }
          let ps1 := { player_state with workers := player_state.workers.set widx worker1 }
          let gs2 := { gs1 with players := gs1.players.set player_index ps1 }
          -- Action Effect (Rule p17 - 2P): gain 3 coins
          match gain_coins ps1 3 with
          | .error e => .error (e, gs2)
          | .ok ps2 => .ok { gs2 with players := gs2.players.set player_index ps2 }


/-! ## Helper lemmas about the list and dictionary operations -/

theorem list_set_of_getElem? {α : Type} (l : List α) (i : Nat) (a : α)
    (h : l[i]? = some a) : l.set i a = l := by
  induction l generalizing i with
  | nil => simp at h
  | cons x xs ih =>
    cases i with
    | zero => simp at h; simp [List.set, h]
    | succ j => simp at h; simp [List.set, ih j h]

theorem list_mem_set {α : Type} (l : List α) (i : Nat) (a x : α)
    (h : x ∈ l.set i a) : x = a ∨ x ∈ l := by
  induction l generalizing i with
  | nil => simp [List.set] at h
  | cons y ys ih =>
    cases i with
    | zero =>
      simp [List.set] at h
      rcases h with h | h
      · exact Or.inl h
      · exact Or.inr (List.mem_cons_of_mem _ h)
    | succ j =>
      simp [List.set] at h
      rcases h with h | h
      · exact Or.inr (by simp [h])
      · rcases ih j h with h' | h'
        · exact Or.inl h'
        · exact Or.inr (List.mem_cons_of_mem _ h')

theorem list_nodup_getElem?_inj {α : Type} {l : List α} {i j : Nat} {a b : α}
    (hnd : l.Nodup) (hi : l[i]? = some a) (hj : l[j]? = some b)
    (hab : a = b) : i = j := by
  induction l generalizing i j with
  | nil => simp at hi
  | cons x xs ih =>
    rcases List.nodup_cons.mp hnd with ⟨hx, hxs⟩
    cases i with
    | zero =>
      cases j with
      | zero => rfl
      | succ j' =>
        simp at hi
        simp at hj
        exact absurd (List.getElem?_mem hj) (by rw [← hab, ← hi]; exact hx)
    | succ i' =>
      cases j with
      | zero =>
        simp at hi
        simp at hj
        exact absurd (List.getElem?_mem hi) (by rw [hab, ← hj]; exact hx)
      | succ j' =>
        simp at hi
        simp at hj
        exact congrArg Nat.succ (ih hxs hi hj)

theorem dictLookup_dictSet_self {α β : Type} [DecidableEq α]
    (l : List (α × β)) (k : α) (v : β) :
    dictLookup (dictSet l k v) k = some v := by
  induction l with
  | nil => simp [dictSet, dictLookup]
  | cons p rest ih =>
    by_cases h : p.1 = k
    · simp only [dictSet]
      rw [if_pos h]
      simp [dictLookup]
    · simp only [dictSet]
      rw [if_neg h]
      simp only [dictLookup]
      rw [if_neg h]
      exact ih

theorem dictLookup_dictSet_ne {α β : Type} [DecidableEq α]
    (l : List (α × β)) (k k' : α) (v : β) (h : k' ≠ k) :
    dictLookup (dictSet l k v) k' = dictLookup l k' := by
  have hkk : k ≠ k' := fun h' => h h'.symm
  induction l with
  | nil =>
    simp only [dictSet, dictLookup]
    rw [if_neg hkk]
  | cons p rest ih =>
    by_cases hp : p.1 = k
    · simp only [dictSet]
      rw [if_pos hp]
      simp only [dictLookup]
      rw [if_neg hkk, if_neg (by rw [hp]; exact hkk)]
    · simp only [dictSet]
      rw [if_neg hp]
      simp only [dictLookup]
      by_cases hp' : p.1 = k'
      · rw [if_pos hp', if_pos hp']
      · rw [if_neg hp', if_neg hp']
        exact ih

theorem dictLookup_append {α β : Type} [DecidableEq α]
    (l1 l2 : List (α × β)) (k : α) :
    dictLookup (l1 ++ l2) k =
      match dictLookup l1 k with
      | some v => some v
      | none => dictLookup l2 k := by
  induction l1 with
  | nil => simp [dictLookup]
  | cons p rest ih =>
    by_cases h : p.1 = k
    · simp only [List.cons_append, dictLookup]
      rw [if_pos h, if_pos h]
    · simp only [List.cons_append, dictLookup]
      rw [if_neg h, if_neg h]
      exact ih

theorem dictGetD_setdefaultAppend_self {α β : Type} [DecidableEq α]
    (l : List (α × List β)) (k : α) (x : β) :
    dictGetD (dictSetdefaultAppend l k x) k [] = dictGetD l k [] ++ [x] := by
  cases h : dictLookup l k with
  | none =>
    have hs : dictSetdefaultAppend l k x = l ++ [(k, [x])] := by
      unfold dictSetdefaultAppend; rw [h]
    unfold dictGetD
    rw [hs, dictLookup_append, h]
    simp [dictLookup]
  | some seq =>
    have hs : dictSetdefaultAppend l k x = dictSet l k (seq ++ [x]) := by
      unfold dictSetdefaultAppend; rw [h]
    unfold dictGetD
    rw [hs, dictLookup_dictSet_self, h]
    rfl

theorem dictGetD_setdefaultAppend_ne {α β : Type} [DecidableEq α]
    (l : List (α × List β)) (k k' : α) (x : β) (h : k' ≠ k) :
    dictGetD (dictSetdefaultAppend l k x) k' [] = dictGetD l k' [] := by
  cases hk : dictLookup l k with
  | none =>
    have hs : dictSetdefaultAppend l k x = l ++ [(k, [x])] := by
      unfold dictSetdefaultAppend; rw [hk]
    unfold dictGetD
    rw [hs, dictLookup_append]
    cases hk' : dictLookup l k' with
    | none =>
      simp only [dictLookup]
      rw [if_neg (fun h' => h h'.symm)]
    | some v => rfl
  | some seq =>
    have hs : dictSetdefaultAppend l k x = dictSet l k (seq ++ [x]) := by
      unfold dictSetdefaultAppend; rw [hk]
    unfold dictGetD
    rw [hs, dictLookup_dictSet_ne _ _ _ _ h]

theorem gridGet?_gridSet_self {α : Type} (g : List (List α)) (r c : Nat) (v a : α)
    (h : gridGet? g r c = some a) : gridGet? (gridSet g r c v) r c = some v := by
  cases hr : g[r]? with
  | none => unfold gridGet? at h; rw [hr] at h; exact absurd h (by simp)
  | some rowL =>
    unfold gridGet? at h
    rw [hr] at h
    have hrlen : r < g.length := (List.getElem?_eq_some.mp hr).1
    have hclen : c < rowL.length := (List.getElem?_eq_some.mp h).1
    have hset : gridSet g r c v = g.set r (rowL.set c v) := by
      unfold gridSet; rw [hr]
    rw [hset]
    unfold gridGet?
    rw [List.getElem?_set_self hrlen]
    exact List.getElem?_set_self hclen

theorem gridGet?_gridSet_ne {α : Type} (g : List (List α)) (r c r' c' : Nat) (v : α)
    (h : (r', c') ≠ (r, c)) :
    gridGet? (gridSet g r c v) r' c' = gridGet? g r' c' := by
  cases hr : g[r]? with
  | none =>
    have hset : gridSet g r c v = g := by unfold gridSet; rw [hr]
    rw [hset]
  | some rowL =>
    have hset : gridSet g r c v = g.set r (rowL.set c v) := by
      unfold gridSet; rw [hr]
    rw [hset]
    by_cases hrr : r' = r
    · subst hrr
      have hc : c' ≠ c := fun hc => h (by rw [hc])
      have hrlen : r' < g.length := (List.getElem?_eq_some.mp hr).1
      unfold gridGet?
      rw [List.getElem?_set_self hrlen, hr]
      exact List.getElem?_set_ne (fun hcc => hc hcc.symm)
    · unfold gridGet?
      rw [List.getElem?_set_ne (fun hcc => hrr hcc.symm)]

theorem findIdxAndElem_some {α : Type} (p : α → Bool) (l : List α) (i : Nat) (x : α)
    (h : findIdxAndElem p l = some (i, x)) : l[i]? = some x ∧ p x = true := by
  induction l generalizing i with
  | nil => simp [findIdxAndElem] at h
  | cons y ys ih =>
    unfold findIdxAndElem at h
    by_cases hy : p y
    · rw [if_pos hy] at h
      have h1 : i = 0 ∧ y = x := by
        have := Option.some.inj h
        exact ⟨(Prod.mk.injEq _ _ _ _ ▸ this).1.symm, (Prod.mk.injEq _ _ _ _ ▸ this).2⟩
      rcases h1 with ⟨h1, h2⟩
      subst h1; subst h2
      exact ⟨List.getElem?_cons_zero, hy⟩
    · rw [if_neg hy] at h
      cases hys : findIdxAndElem p ys with
      | none => rw [hys] at h; exact absurd h (by simp)
      | some r =>
        rw [hys] at h
        simp only [Option.map_some'] at h
        have := Option.some.inj h
        have hfst : r.1 + 1 = i := (Prod.mk.injEq _ _ _ _ ▸ this).1
        have hsnd : r.2 = x := (Prod.mk.injEq _ _ _ _ ▸ this).2
        cases i with
        | zero => omega
        | succ i' =>
          have hi' : r.1 = i' := by omega
          have hr : findIdxAndElem p ys = some (i', x) := by
            rw [hys, ← hi', ← hsnd]
          rcases ih i' hr with ⟨g1, g2⟩
          exact ⟨by simpa using g1, g2⟩

theorem spend_temp_knowledge_id (ps : PlayerState) (a : Int) :
    spend_temp_knowledge ps a = ps := rfl

theorem spend_coins_ok_shape (ps ps' : PlayerState) (c : Int)
    (h : spend_coins ps c = .ok ps') :
    ps' = { ps with coins := ps.coins - c } ∨ (c = 0 ∧ ps' = ps) := by
  unfold spend_coins at h
  by_cases h1 : c < 0
  · rw [if_pos h1] at h; exact absurd h (by simp)
  · rw [if_neg h1] at h
    by_cases h2 : c > 0
    · rw [if_pos h2] at h
      exact Or.inl (Except.ok.inj h).symm
    · rw [if_neg h2] at h
      exact Or.inr ⟨by omega, (Except.ok.inj h).symm⟩

theorem spend_coins_ok_coins_diff (ps ps' : PlayerState) (c : Int)
    (h : spend_coins ps c = .ok ps') : ps.coins - ps'.coins = c := by
  rcases spend_coins_ok_shape ps ps' c h with h' | ⟨hc, h'⟩
  · rw [h']; ring
  · rw [h', hc]; ring

/-! ## Inversion lemmas for the two action handlers -/

/-- The worker after section 5c of `perform_academy_action`: placed, one
more seal of the taken colour, one more slot filled. -/
def academyWorkerUpdate (worker : WorkerState) (sealc : SealColor) : WorkerState :=
  { worker with
    is_placed := true
    seals := dictSet worker.seals sealc (dictGetD worker.seals sealc 0 + 1)
    seal_slots_filled := worker.seal_slots_filled + 1 }

/-- The final state built by the mutation phase (section 5) of
`perform_academy_action`, with the three chained `players` writebacks
collapsed into one `List.set`. -/
def academyApply (gs : GameState) (pi wid : Nat) (loc : String)
    (widx : Nat) (worker : WorkerState) (ps2 : PlayerState)
    (sealc : SealColor) (row_idx col_idx : Nat) : GameState :=
  let ps3 : PlayerState :=
    { ps2 with workers := ps2.workers.set widx (academyWorkerUpdate worker sealc) }
  { gs with
    players := gs.players.set pi ps3
    main_board_workers := dictSetdefaultAppend gs.main_board_workers loc (pi, wid)
    academy_seals := gridSet gs.academy_seals row_idx col_idx none }

set_option maxHeartbeats 1000000 in
theorem academy_error_state_eq (gs : GameState) (pi wid : Nat) (loc : String)
    (row idx : Int) (utk : Bool) (data : AllGameData) (e : EngineError)
    (gs' : GameState)
    (h : perform_academy_action gs pi wid loc row idx utk data = .error (e, gs')) :
    gs' = gs := by
  unfold perform_academy_action at h
  dsimp only at h
  repeat' split at h
  all_goals
    first
    | (simp only [Except.error.injEq, Prod.mk.injEq] at h; exact h.2.symm)
    | (simp at h; done)
    | (simp only [Except.error.injEq, Prod.mk.injEq] at h
       obtain ⟨-, h2⟩ := h
       subst h2
       try rw [spend_temp_knowledge_id]
       rw [list_set_of_getElem? _ _ _ (by assumption)])

set_option maxHeartbeats 1000000 in
theorem academy_ok_shape (gs : GameState) (pi wid : Nat) (loc : String)
    (row idx : Int) (utk : Bool) (data : AllGameData) (gs' : GameState)
    (h : perform_academy_action gs pi wid loc row idx utk data = .ok gs') :
    gs.current_player_index = pi ∧
    ∃ ps widx worker location_data sealc tk scroll_data pbd worker_row_def
      seal_slot_def ps2,
      gs.players[pi]? = some ps ∧
      findIdxAndElem (fun w => w.worker_id = wid) ps.workers = some (widx, worker) ∧
      worker.is_placed = false ∧
      dictLookup data.main_board_actions loc = some location_data ∧
      location_data.action_type = "ACADEMY" ∧
      (1 ≤ row ∧ row ≤ 4) ∧ (0 ≤ idx ∧ idx ≤ 2) ∧
      gridGet? gs.academy_seals (row - 1).toNat idx.toNat = some (some sealc) ∧
      academyRequirementStep worker wid location_data ps.temporary_knowledge utk
        = .ok tk ∧
      dictLookup data.academy_scrolls row = some scroll_data ∧
      data.personal_board = some pbd ∧
      pbd.worker_rows.find? (fun r => r.row_index = worker.row_index)
        = some worker_row_def ∧
      worker.seal_slots_filled < worker_row_def.max_seals ∧
      worker_row_def.seal_slots[worker.seal_slots_filled]? = some seal_slot_def ∧
      can_afford ps (calculate_placement_penalty gs loc pi data.main_board_actions
        + scroll_data.cost + seal_slot_def.placement_cost) = true ∧
      ¬ ps.temporary_knowledge < tk ∧
      spend_coins ps (calculate_placement_penalty gs loc pi data.main_board_actions
        + scroll_data.cost + seal_slot_def.placement_cost) = .ok ps2 ∧
      gs' = academyApply gs pi wid loc widx worker ps2 sealc
        (row - 1).toNat idx.toNat := by
  unfold perform_academy_action at h
  dsimp only at h
  split at h
  next hturn => simp at h
  next hturn =>
    split at h
    next hps => simp at h
    next ps hps =>
      split at h
      next hfind => simp at h
      next widx worker hfind =>
        split at h
        next hplaced => simp at h
        next hplaced =>
          split at h
          next hloc => simp at h
          next location_data hloc =>
            split at h
            next htype => simp at h
            next htype =>
              split at h
              next hrow => simp at h
              next hrow =>
                split at h
                next hidx => simp at h
                next hidx =>
                  split at h
                  next hgrid => simp at h
                  next hgrid => simp at h
                  next sealc hgrid =>
                    split at h
                    next e hreq => simp at h
                    next tk hreq =>
                      split at h
                      next hscroll => simp at h
                      next scroll_data hscroll =>
                        split at h
                        next hpb => simp at h
                        next pbd hpb =>
                          split at h
                          next hrowdef => simp at h
                          next worker_row_def hrowdef =>
                            split at h
                            next hfull => simp at h
                            next hfull =>
                              split at h
                              next hslot => simp at h
                              next seal_slot_def hslot =>
                                split at h
                                next hafford => simp at h
                                next hafford =>
                                  split at h
                                  next htk => simp at h
                                  next htk =>
                                    split at h
                                    next e hspend => simp at h
                                    next ps2 hspend =>
                                      have hok := Except.ok.inj h
                                      have hps1 : (if 0 < tk then
                                          spend_temp_knowledge ps tk else ps) = ps := by
                                        split <;> rfl
                                      rw [hps1] at hspend
                                      refine ⟨not_ne_iff.mp hturn, ps, widx, worker,
                                        location_data, sealc, tk, scroll_data, pbd,
                                        worker_row_def, seal_slot_def, ps2, hps, hfind,
                                        Bool.eq_false_iff.mpr hplaced, hloc,
                                        not_ne_iff.mp htype, not_not.mp hrow,
                                        not_not.mp hidx, hgrid, hreq, hscroll, hpb,
                                        hrowdef, by omega, hslot,
                                        not_not.mp hafford, htk, hspend, ?_⟩
                                      rw [← hok]
                                      unfold academyApply academyWorkerUpdate
                                      dsimp only
                                      rw [hps1, List.set_set, List.set_set]

/-- The final state built by the mutation phase of
`perform_reserve_turn_order`, with the two chained `players` writebacks
collapsed into one `List.set`. -/
def reserveApply (gs : GameState) (pi wid widx : Nat) (worker : WorkerState)
    (ps : PlayerState) : GameState :=
  let worker1 : WorkerState := { worker with is_placed := true }
  let ps2 : PlayerState :=
    { ps with
      coins := ps.coins + 3
      workers := ps.workers.set widx worker1 }
  { gs with
    players := gs.players.set pi ps2
    main_board_workers := dictSetdefaultAppend gs.main_board_workers
      "RESERVE_TURN_ORDER" (pi, wid) }

theorem gain_coins_three (ps : PlayerState) :
    gain_coins ps 3 = .ok { ps with coins := ps.coins + 3 } := by
  unfold gain_coins
  norm_num

theorem reserve_error_state_eq (gs : GameState) (pi wid : Nat)
    (e : EngineError) (gs' : GameState)
    (h : perform_reserve_turn_order gs pi wid = .error (e, gs')) : gs' = gs := by
  unfold perform_reserve_turn_order at h
  dsimp only at h
  simp only [gain_coins_three] at h
  repeat' split at h
  all_goals
    first
    | (simp only [Except.error.injEq, Prod.mk.injEq] at h; exact h.2.symm)
    | (simp at h; done)

theorem reserve_ok_shape (gs : GameState) (pi wid : Nat) (gs' : GameState)
    (h : perform_reserve_turn_order gs pi wid = .ok gs') :
    gs.current_player_index = pi ∧
    ∃ ps widx worker,
      gs.players[pi]? = some ps ∧
      findIdxAndElem (fun w => w.worker_id = wid) ps.workers = some (widx, worker) ∧
      worker.is_placed = false ∧
      gs' = reserveApply gs pi wid widx worker ps := by
  unfold perform_reserve_turn_order at h
  dsimp only at h
  simp only [gain_coins_three] at h
  split at h
  next hturn => simp at h
  next hturn =>
    split at h
    next hps => simp at h
    next ps hps =>
      split at h
      next hfind => simp at h
      next widx worker hfind =>
        split at h
        next hplaced => simp at h
        next hplaced =>
          have hok := Except.ok.inj h
          refine ⟨not_ne_iff.mp hturn, ps, widx, worker, hps, hfind,
            Bool.eq_false_iff.mpr hplaced, ?_⟩
          rw [← hok]
          unfold reserveApply
          dsimp only
          rw [List.set_set]

theorem list_getElem?_of_mem {α : Type} (l : List α) (a : α) (h : a ∈ l) :
    ∃ i : Nat, l[i]? = some a := by
  induction l with
  | nil => simp at h
  | cons x xs ih =>
    rcases List.mem_cons.mp h with h' | h'
    · exact ⟨0, by simp [h']⟩
    · rcases ih h' with ⟨i, hi⟩
      exact ⟨i + 1, by simpa using hi⟩

theorem list_mem_set_strong {α : Type} (l : List α) (i : Nat) (a x : α)
    (h : x ∈ l.set i a) : x = a ∨ ∃ j : Nat, j ≠ i ∧ l[j]? = some x := by
  induction l generalizing i with
  | nil => simp [List.set] at h
  | cons y ys ih =>
    cases i with
    | zero =>
      simp [List.set] at h
      rcases h with h | h
      · exact Or.inl h
      · rcases list_getElem?_of_mem ys x h with ⟨j, hj⟩
        exact Or.inr ⟨j + 1, by omega, by simpa using hj⟩
    | succ i' =>
      simp [List.set] at h
      rcases h with h | h
      · exact Or.inr ⟨0, by omega, by simp [h]⟩
      · rcases ih i' h with h' | ⟨j, hj, hjx⟩
        · exact Or.inl h'
        · exact Or.inr ⟨j + 1, by omega, by simpa using hjx⟩

/-! ## Worker-placement occupancy and its invariants -/

/-- The occupancy sequence of a location:
`game_state.main_board_workers.get(location_id, [])`. -/
def occupants (gs : GameState) (loc : String) : List (Nat × Nat) :=
  dictGetD gs.main_board_workers loc []

/-- The worker-placement-exclusivity property exactly as the spec states
it: a (player-index, worker-id) pair appears in at most one location's
occupancy sequence. -/
def ExclusivePlacement (gs : GameState) : Prop :=
  ∀ (loc1 loc2 : String) (p : Nat × Nat),
    p ∈ occupants gs loc1 → p ∈ occupants gs loc2 → loc1 = loc2

/-- The inductive invariant that the two actions actually preserve:
exclusivity, plus distinct worker ids within each player, plus the link
between the `is_placed` flag and board occupancy (an unplaced worker's
pair occupies no location). -/
def PlacementInv (gs : GameState) : Prop :=
  ExclusivePlacement gs ∧
  (∀ (pi : Nat) (ps : PlayerState), gs.players[pi]? = some ps →
    (ps.workers.map (fun w => w.worker_id)).Nodup) ∧
  (∀ (pi : Nat) (ps : PlayerState) (w : WorkerState),
    gs.players[pi]? = some ps → w ∈ ps.workers → w.is_placed = false →
    ∀ loc : String, (pi, w.worker_id) ∉ occupants gs loc)

/-- Common preservation argument for both actions: placing one unplaced
worker (appending its pair to one location and flipping its flag)
preserves `PlacementInv`, whatever else changes about that player's
record. -/
theorem placementInv_place (gs : GameState) (pi wid : Nat) (loc : String)
    (ps psN : PlayerState) (widx : Nat) (worker workerN : WorkerState)
    (hps : gs.players[pi]? = some ps)
    (hfind : ps.workers[widx]? = some worker)
    (hwid : worker.worker_id = wid)
    (hplaced : worker.is_placed = false)
    (hNworkers : psN.workers = ps.workers.set widx workerN)
    (hNid : workerN.worker_id = worker.worker_id)
    (hNplaced : workerN.is_placed = true)
    (gs' : GameState)
    (hplayers : gs'.players = gs.players.set pi psN)
    (hmbw : gs'.main_board_workers
      = dictSetdefaultAppend gs.main_board_workers loc (pi, wid))
    (hInv : PlacementInv gs) : PlacementInv gs' := by
  obtain ⟨hEx, hNd, hUn⟩ := hInv
  have hlen : pi < gs.players.length := (List.getElem?_eq_some.mp hps).1
  have hoccS : occupants gs' loc = occupants gs loc ++ [(pi, wid)] := by
    unfold occupants
    rw [hmbw]
    exact dictGetD_setdefaultAppend_self _ _ _
  have hoccN : ∀ l, l ≠ loc → occupants gs' l = occupants gs l := by
    intro l hl
    unfold occupants
    rw [hmbw]
    exact dictGetD_setdefaultAppend_ne _ _ _ _ hl
  have hnotin : ∀ l, (pi, wid) ∉ occupants gs l := by
    intro l
    have := hUn pi ps worker hps (List.getElem?_mem hfind) hplaced l
    rwa [hwid] at this
  have hmem' : ∀ l p, p ∈ occupants gs' l →
      (p ∈ occupants gs l ∨ (l = loc ∧ p = (pi, wid))) := by
    intro l p hp
    by_cases hl : l = loc
    · subst hl
      rw [hoccS] at hp
      rcases List.mem_append.mp hp with hp | hp
      · exact Or.inl hp
      · exact Or.inr ⟨rfl, List.mem_singleton.mp hp⟩
    · rw [hoccN l hl] at hp
      exact Or.inl hp
  have hplayers' : ∀ pj psj, gs'.players[pj]? = some psj →
      (pj = pi ∧ psj = psN) ∨ (pj ≠ pi ∧ gs.players[pj]? = some psj) := by
    intro pj psj hpsj
    by_cases hj : pj = pi
    · subst hj
      rw [hplayers, List.getElem?_set_self hlen] at hpsj
      exact Or.inl ⟨rfl, (Option.some.inj hpsj).symm⟩
    · rw [hplayers, List.getElem?_set_ne (fun hc => hj hc.symm)] at hpsj
      exact Or.inr ⟨hj, hpsj⟩
  refine ⟨?_, ?_, ?_⟩
  · -- exclusivity
    intro l1 l2 p h1 h2
    rcases hmem' l1 p h1 with h1' | ⟨h1l, h1p⟩
    · rcases hmem' l2 p h2 with h2' | ⟨h2l, h2p⟩
      · exact hEx l1 l2 p h1' h2'
      · exact absurd (h2p ▸ h1') (hnotin l1)
    · rcases hmem' l2 p h2 with h2' | ⟨h2l, h2p⟩
      · exact absurd (h1p ▸ h2') (hnotin l2)
      · rw [h1l, h2l]
  · -- worker-id nodup per player
    intro pj psj hpsj
    rcases hplayers' pj psj hpsj with ⟨hj, hpsj'⟩ | ⟨hj, hpsj'⟩
    · subst hpsj'
      rw [hNworkers, List.map_set, hNid]
      have hmapped : (ps.workers.map (fun w => w.worker_id))[widx]?
          = some worker.worker_id := by
        rw [List.getElem?_map, hfind]
        rfl
      rw [list_set_of_getElem? _ _ _ hmapped]
      exact hNd pi ps hps
    · exact hNd pj psj hpsj'
  · -- unplaced workers occupy no location
    intro pj psj w hpsj hw hwnp l hmem
    rcases hplayers' pj psj hpsj with ⟨hj, hpsj'⟩ | ⟨hj, hpsj'⟩
    · subst hj
      subst hpsj'
      rw [hNworkers] at hw
      rcases list_mem_set_strong _ _ _ _ hw with hw' | ⟨j, hjne, hjw⟩
      · rw [hw', hNplaced] at hwnp
        exact absurd hwnp (by simp)
      · have hwold : w ∈ ps.workers := List.getElem?_mem hjw
        rcases hmem' l _ hmem with hin | ⟨-, hpair⟩
        · exact absurd hin (hUn _ ps w hps hwold hwnp l)
        · have hwidEq : w.worker_id = wid := congrArg Prod.snd hpair
          have hmapj : (ps.workers.map (fun w => w.worker_id))[j]?
              = some w.worker_id := by
            rw [List.getElem?_map, hjw]
            rfl
          have hmapw : (ps.workers.map (fun w => w.worker_id))[widx]?
              = some worker.worker_id := by
            rw [List.getElem?_map, hfind]
            rfl
          have : j = widx := list_nodup_getElem?_inj (hNd _ ps hps) hmapj hmapw
            (by rw [hwidEq, hwid])
          exact hjne this
    · rcases hmem' l _ hmem with hin | ⟨-, hpair⟩
      · exact absurd hin (hUn pj psj w hpsj' hw hwnp l)
      · exact hj (congrArg Prod.fst hpair)

theorem placementInv_academy (gs : GameState) (pi wid : Nat) (loc : String)
    (row idx : Int) (utk : Bool) (data : AllGameData) (gs' : GameState)
    (hInv : PlacementInv gs)
    (h : perform_academy_action gs pi wid loc row idx utk data = .ok gs') :
    PlacementInv gs' := by
  obtain ⟨-, ps, widx, worker, location_data, sealc, tk, scroll_data, pbd, wrd, ssd,
    ps2, hps, hfind, hplaced, -, -, -, -, -, -, -, -, -, -, -, -, -, hspend, hgs'⟩ :=
    academy_ok_shape _ _ _ _ _ _ _ _ _ h
  obtain ⟨hwidx, hwpred⟩ := findIdxAndElem_some _ _ _ _ hfind
  have hwid : worker.worker_id = wid := by simpa using hwpred
  have hps2w : ps2.workers = ps.workers := by
    rcases spend_coins_ok_shape _ _ _ hspend with h' | ⟨-, h'⟩ <;> rw [h']
  subst hgs'
  refine placementInv_place gs pi wid loc ps
    { ps2 with workers := ps2.workers.set widx (academyWorkerUpdate worker sealc) }
    widx worker (academyWorkerUpdate worker sealc)
    hps hwidx hwid hplaced ?_ rfl rfl _ rfl rfl hInv
  show ps2.workers.set widx _ = ps.workers.set widx _
  rw [hps2w]

theorem placementInv_reserve (gs : GameState) (pi wid : Nat) (gs' : GameState)
    (hInv : PlacementInv gs)
    (h : perform_reserve_turn_order gs pi wid = .ok gs') :
    PlacementInv gs' := by
  obtain ⟨-, ps, widx, worker, hps, hfind, hplaced, hgs'⟩ :=
    reserve_ok_shape _ _ _ _ h
  obtain ⟨hwidx, hwpred⟩ := findIdxAndElem_some _ _ _ _ hfind
  have hwid : worker.worker_id = wid := by simpa using hwpred
  subst hgs'
  exact placementInv_place gs pi wid "RESERVE_TURN_ORDER" ps
    { ps with coins := ps.coins + 3, workers := ps.workers.set widx { worker with is_placed := true } }
    widx worker { worker with is_placed := true }
    hps hwidx hwid hplaced rfl rfl rfl _ rfl rfl hInv

/-! ## The engine's step relation -/

/-- The state the caller holds after an engine call: the returned state on
success, the carried (untouched) state on rejection. -/
def afterState (r : Except (EngineError × GameState) GameState) : GameState :=
  match r with
  | .ok g => g
  | .error (_, g) => g

/-- One engine call, with any arguments, of either of the two embedded
action handlers (accepted or rejected). -/
def EngineStep (gs gs' : GameState) : Prop :=
  (∃ (pi wid : Nat) (loc : String) (row idx : Int) (utk : Bool)
      (data : AllGameData),
    afterState (perform_academy_action gs pi wid loc row idx utk data) = gs') ∨
  (∃ pi wid : Nat, afterState (perform_reserve_turn_order gs pi wid) = gs')

/-- Reachability by any finite sequence of engine calls. -/
def EngineReachable : GameState → GameState → Prop :=
  Relation.ReflTransGen EngineStep

theorem placementInv_step (gs gs' : GameState) (hInv : PlacementInv gs)
    (h : EngineStep gs gs') : PlacementInv gs' := by
  rcases h with ⟨pi, wid, loc, row, idx, utk, data, hr⟩ | ⟨pi, wid, hr⟩
  · cases hres : perform_academy_action gs pi wid loc row idx utk data with
    | ok g =>
      rw [hres] at hr
      unfold afterState at hr
      rw [← hr]
      exact placementInv_academy _ _ _ _ _ _ _ _ _ hInv hres
    | error p =>
      rw [hres] at hr
      unfold afterState at hr
      have := academy_error_state_eq _ _ _ _ _ _ _ _ p.1 p.2
        (by rw [hres])
      rw [← hr]
      simp only [this]
      exact hInv
  · cases hres : perform_reserve_turn_order gs pi wid with
    | ok g =>
      rw [hres] at hr
      unfold afterState at hr
      rw [← hr]
      exact placementInv_reserve _ _ _ _ hInv hres
    | error p =>
      rw [hres] at hr
      unfold afterState at hr
      have := reserve_error_state_eq _ _ _ p.1 p.2 (by rw [hres])
      rw [← hr]
      simp only [this]
      exact hInv

theorem placementInv_reachable (gs gs' : GameState) (hInv : PlacementInv gs)
    (h : EngineReachable gs gs') : PlacementInv gs' := by
  induction h with
  | refl => exact hInv
  | tail _ hstep ih => exact placementInv_step _ _ ih hstep

/-! ## Concrete fixtures (mirroring tests/actions/test_academy.py) -/

def fixWorkerA : WorkerState := { worker_id := 1, row_index := 1, seals := [(SealColor.RED, 1)] }

def fixWorkerB : WorkerState := { worker_id := 1, row_index := 1 }

def fixWorkerFull : WorkerState :=
  { worker_id := 1, row_index := 1,
    seals := [(SealColor.RED, 1), (SealColor.BLUE, 1), (SealColor.GREEN, 1)],
    seal_slots_filled := 3 }

def mkPlayer (coins tk : Int) (w : WorkerState) : PlayerState :=
  { player_index := 0, player_color := PlayerColor.BLUE, coins := coins,
    temporary_knowledge := tk, workers := [w] }

def fixGrid : List (List (Option SealColor)) :=
  [[some .RED, some .BLUE, some .GREEN],
   [some .YELLOW, some .SPECIAL, some .RED],
   [some .BLUE, some .GREEN, some .YELLOW],
   [some .SPECIAL, some .RED, some .BLUE]]

def mkState (p : PlayerState) : GameState :=
  { players := [p], current_player_index := 0, academy_seals := fixGrid }

def fixLocation : BoardActionLocation :=
  { id := "ACADEMY_1", action_type := "ACADEMY", diary_type := "MAIN",
    placement_type := "CIRCULAR_MAGNIFYING_GLASS",
    wax_seal_requirements := [(SealColor.RED, 1)] }

def fixScroll : AcademyScroll := { id := "scroll_1", scroll_row := 1, cost := 2, slots := 3 }

def fixRowDef : PersonalBoardWorkerRow :=
  { row_index := 1, max_seals := 3,
    seal_slots := [{ slot_index := 0, placement_cost := 1 },
                   { slot_index := 1, placement_cost := 2 },
                   { slot_index := 2, placement_cost := 3, distinction_trigger := some "SILVER" }] }

def fixBoardDef : PersonalBoardDefinition :=
  { board_id := "test_board", worker_rows := [fixRowDef] }

def fixData : AllGameData :=
  { main_board_actions := [("ACADEMY_1", fixLocation)],
    academy_scrolls := [(1, fixScroll)],
    personal_board := some fixBoardDef }

/-- Scenario A of the spec: 1 red seal held, 1 red required, scroll row 1
(cost 2), slot cost 1, empty board, coins 10. -/
def scenarioA_state : GameState := mkState (mkPlayer 10 2 fixWorkerA)

def scenarioA_after : GameState :=
  afterState (perform_academy_action scenarioA_state 0 1 "ACADEMY_1" 1 0 false fixData)

def scenarioA_player_after : PlayerState :=
  (scenarioA_after.players[0]?).getD (mkPlayer 0 0 fixWorkerB)

/-- Scenario B/C of the spec: worker holds 0 red seals, 1 red required,
player has 1 temporary knowledge. -/
def scenarioB_state : GameState := mkState (mkPlayer 10 1 fixWorkerB)

def scenarioB_after : GameState :=
  afterState (perform_academy_action scenarioB_state 0 1 "ACADEMY_1" 1 0 true fixData)

/-- A state in which it is player 1's turn, so player 0's request violates
turn ownership. -/
def wrongTurnState : GameState := { scenarioA_state with current_player_index := 1 }

def wrongTurnErrState : GameState :=
  afterState (perform_academy_action wrongTurnState 0 1 "ACADEMY_1" 1 0 false fixData)

/-! ## The claims -/

/-- C1: every call to `perform_academy_action` that raises (returns an
error, at any stage) leaves the Game State it was passed unchanged: the
state carried at the raise site is equal to the input state. -/
theorem academy_rejection_atomic (gs : GameState) (pi wid : Nat) (loc : String)
    (row idx : Int) (utk : Bool) (data : AllGameData) (e : EngineError)
    (gs' : GameState)
    (h : perform_academy_action gs pi wid loc row idx utk data = .error (e, gs')) :
    gs' = gs :=
  academy_error_state_eq gs pi wid loc row idx utk data e gs' h

theorem academy_rejection_atomic_witness :
    perform_academy_action wrongTurnState 0 1 "ACADEMY_1" 1 0 false fixData
      = .error (.notPlayersTurn 0, wrongTurnErrState) ∧
    wrongTurnErrState = wrongTurnState :=
  ⟨rfl, academy_rejection_atomic wrongTurnState 0 1 "ACADEMY_1" 1 0 false fixData
    (.notPlayersTurn 0) wrongTurnErrState rfl⟩

/-- C2 (code-bug evidence, Scenario B): the worker holds 0 of the required
red seal, the location requires 1, the player has 1 temporary knowledge
and authorizes its use.  The requirement step demands 1 unit of the
substitute (`.ok 1`) and the call succeeds, yet `temporary_knowledge`
stays at 1 instead of dropping to 0, because `spend_temp_knowledge` in
engine_utils.py is an unimplemented `pass` stub. -/
theorem academy_scenarioB_substitute_not_debited :
    perform_academy_action scenarioB_state 0 1 "ACADEMY_1" 1 0 true fixData
      = .ok scenarioB_after ∧
    academyRequirementStep fixWorkerB 1 fixLocation 1 true = .ok 1 ∧
    (scenarioB_state.players[0]?).map (fun p => p.temporary_knowledge) = some 1 ∧
    (scenarioB_after.players[0]?).map (fun p => p.temporary_knowledge) = some 1 :=
  ⟨rfl, rfl, rfl, rfl⟩

/-- C3 counterexample (Scenario C): with the substitute needed, available,
but not authorized, the call is rejected with `tempKnowledgeRefused`,
which academy.py raises as a plain `InvalidActionError` — it is not an
instance of the `InsufficientResourcesError` subclass, contradicting the
claim's "insufficient-resources-class error". -/
theorem academy_unauthorized_substitute_error_class_cex :
    perform_academy_action scenarioB_state 0 1 "ACADEMY_1" 1 0 false fixData
      = .error (.tempKnowledgeRefused 1, scenarioB_state) ∧
    isInsufficientResourcesError (.tempKnowledgeRefused 1) = false ∧
    errorClass (.tempKnowledgeRefused 1) = ErrorClass.invalidAction :=
  ⟨rfl, rfl, rfl⟩

/-- C3 as amended: when the worker's seals do not meet the requirement on
their own, the player holds enough of the substitute to cover the deficit
(`check_wax_seal_req` returns `(true, n)` with `0 < n`), but
`use_temp_knowledge` is false, the call is rejected with the
invalid-action-class error `tempKnowledgeRefused` (not the
insufficient-resources specialization), and the state passed back with
the rejection is the unchanged input state. -/
theorem academy_unauthorized_substitute_rejected
    (gs : GameState) (pi wid : Nat) (loc : String) (row idx : Int)
    (data : AllGameData) (ps : PlayerState) (widx : Nat) (worker : WorkerState)
    (location_data : BoardActionLocation) (sealc : SealColor) (n : Int)
    (hturn : gs.current_player_index = pi)
    (hps : gs.players[pi]? = some ps)
    (hfind : findIdxAndElem (fun w => w.worker_id = wid) ps.workers
      = some (widx, worker))
    (hplaced : worker.is_placed = false)
    (hloc : dictLookup data.main_board_actions loc = some location_data)
    (htype : location_data.action_type = "ACADEMY")
    (hrow : 1 ≤ row ∧ row ≤ 4) (hidx : 0 ≤ idx ∧ idx ≤ 2)
    (hgrid : gridGet? gs.academy_seals (row - 1).toNat idx.toNat
      = some (some sealc))
    (hreq : location_data.wax_seal_requirements ≠ [])
    (hcheck : check_wax_seal_req worker location_data.wax_seal_requirements
      ps.temporary_knowledge = (true, n))
    (hn : 0 < n) :
    perform_academy_action gs pi wid loc row idx false data
      = .error (.tempKnowledgeRefused n, gs) ∧
    errorClass (.tempKnowledgeRefused n) = ErrorClass.invalidAction ∧
    isInsufficientResourcesError (.tempKnowledgeRefused n) = false := by
  refine ⟨?_, rfl, rfl⟩
  have hgrid' : gridGet? gs.academy_seals (row.toNat - 1) idx.toNat
      = some (some sealc) := by
    rw [show row.toNat - 1 = (row - 1).toNat by omega]
    exact hgrid
  simp [perform_academy_action, academyRequirementStep, hturn, hps, hfind, hplaced,
    hloc, htype, hrow.1, hrow.2, hidx.1, hidx.2, hgrid, hgrid', hreq, hcheck, hn]

theorem academy_unauthorized_substitute_rejected_witness :
    perform_academy_action scenarioB_state 0 1 "ACADEMY_1" 1 0 false fixData
      = .error (.tempKnowledgeRefused 1, scenarioB_state) ∧
    errorClass (.tempKnowledgeRefused 1) = ErrorClass.invalidAction ∧
    isInsufficientResourcesError (.tempKnowledgeRefused 1) = false :=
  academy_unauthorized_substitute_rejected scenarioB_state 0 1 "ACADEMY_1" 1 0
    fixData (mkPlayer 10 1 fixWorkerB) 0 fixWorkerB fixLocation SealColor.RED 1
    rfl rfl rfl rfl rfl rfl (by decide) (by decide) rfl (by decide) rfl
    (by decide)

/-- C4: for every accepted call to `perform_academy_action`, the acting
player's coins decrease by exactly
placement penalty + scroll (base) cost + slot cost. -/
theorem academy_coin_conservation (gs : GameState) (pi wid : Nat) (loc : String)
    (row idx : Int) (utk : Bool) (data : AllGameData) (gs' : GameState)
    (ps ps' : PlayerState)
    (h : perform_academy_action gs pi wid loc row idx utk data = .ok gs')
    (hps : gs.players[pi]? = some ps)
    (hps' : gs'.players[pi]? = some ps') :
    ∃ (scroll_data : AcademyScroll) (seal_slot_def : PersonalBoardSealSlot)
      (worker_row_def : PersonalBoardWorkerRow) (pbd : PersonalBoardDefinition)
      (widx : Nat) (worker : WorkerState),
      dictLookup data.academy_scrolls row = some scroll_data ∧
      data.personal_board = some pbd ∧
      findIdxAndElem (fun w => w.worker_id = wid) ps.workers = some (widx, worker) ∧
      pbd.worker_rows.find? (fun r => r.row_index = worker.row_index)
        = some worker_row_def ∧
      worker_row_def.seal_slots[worker.seal_slots_filled]? = some seal_slot_def ∧
      ps.coins - ps'.coins
        = calculate_placement_penalty gs loc pi data.main_board_actions
          + scroll_data.cost + seal_slot_def.placement_cost := by
  obtain ⟨hturn, ps0, widx, worker, location_data, sealc, tk, scroll_data, pbd,
    worker_row_def, seal_slot_def, ps2, hps0, hfind, hplaced, hloc, htype, hrow,
    hidx, hgrid, hreqstep, hscroll, hpb, hrowdef, hfull, hslot, hafford, htk,
    hspend, hgs'⟩ := academy_ok_shape _ _ _ _ _ _ _ _ _ h
  rw [hps] at hps0
  cases Option.some.inj hps0
  have hlen : pi < gs.players.length := (List.getElem?_eq_some.mp hps).1
  rw [hgs'] at hps'
  have hpl : (academyApply gs pi wid loc widx worker ps2 sealc
      (row - 1).toNat idx.toNat).players
      = gs.players.set pi
        { ps2 with workers := ps2.workers.set widx (academyWorkerUpdate worker sealc) } :=
    rfl
  rw [hpl, List.getElem?_set_self hlen] at hps'
  have hps'eq : ps'
      = { ps2 with workers := ps2.workers.set widx (academyWorkerUpdate worker sealc) } :=
    (Option.some.inj hps').symm
  refine ⟨scroll_data, seal_slot_def, worker_row_def, pbd, widx, worker, hscroll,
    hpb, hfind, hrowdef, hslot, ?_⟩
  have hdiff := spend_coins_ok_coins_diff _ _ _ hspend
  rw [hps'eq]
  exact hdiff

theorem academy_coin_conservation_witness :
    scenarioA_player_after.coins = 7 ∧
    (∃ (scroll_data : AcademyScroll) (seal_slot_def : PersonalBoardSealSlot)
      (worker_row_def : PersonalBoardWorkerRow) (pbd : PersonalBoardDefinition)
      (widx : Nat) (worker : WorkerState),
      dictLookup fixData.academy_scrolls 1 = some scroll_data ∧
      fixData.personal_board = some pbd ∧
      findIdxAndElem (fun w => w.worker_id = 1) (mkPlayer 10 2 fixWorkerA).workers
        = some (widx, worker) ∧
      pbd.worker_rows.find? (fun r => r.row_index = worker.row_index)
        = some worker_row_def ∧
      worker_row_def.seal_slots[worker.seal_slots_filled]? = some seal_slot_def ∧
      (mkPlayer 10 2 fixWorkerA).coins - scenarioA_player_after.coins
        = calculate_placement_penalty scenarioA_state "ACADEMY_1" 0
            fixData.main_board_actions
          + scroll_data.cost + seal_slot_def.placement_cost) :=
  ⟨rfl, academy_coin_conservation scenarioA_state 0 1 "ACADEMY_1" 1 0 false
    fixData scenarioA_after (mkPlayer 10 2 fixWorkerA) scenarioA_player_after
    rfl rfl rfl⟩

/-- State for Scenario E: the worker's row already has every seal slot
filled (3 of 3), and the player cannot afford anything (0 coins). -/
def scenarioE_state : GameState := mkState (mkPlayer 0 0 fixWorkerFull)

/-- The fixture tables with the scroll-cost table empty, as in the repo's
own `test_perform_academy_action_game_error_missing_scroll_data`. -/
def fixDataNoScrolls : AllGameData := { fixData with academy_scrolls := [] }

/-- C5 counterexample: with the worker's row full (3 ≥ 3) and the
scroll-cost table missing its row, the call fails with the scroll-lookup
`GameError`, not with the slot-full rejection — so the slot-full
rejection is not issued "before any cost component is computed": the
scroll (base) cost lookup runs first. -/
theorem academy_slot_full_after_cost_lookup_cex :
    fixWorkerFull.seal_slots_filled ≥ fixRowDef.max_seals ∧
    perform_academy_action scenarioE_state 0 1 "ACADEMY_1" 1 0 false fixDataNoScrolls
      = .error (.scrollDataMissing 1, scenarioE_state) ∧
    EngineError.scrollDataMissing 1 ≠ .sealSlotsFull 1 3 3 ∧
    errorClass (.scrollDataMissing 1) = ErrorClass.internalGameError :=
  ⟨by decide, rfl, by decide, rfl⟩

/-- C5 as amended: when the chosen worker's row already has every seal
slot filled, the call is rejected with the slot-full error regardless of
the player's coins and of every cost value (no affordability hypothesis
appears, and the rejection does not depend on the scroll or slot costs),
before the slot cost is read and before affordability is checked;
however, the placement penalty and the scroll (base) cost lookup are
computed before this rejection. -/
theorem academy_slot_full_rejected (gs : GameState) (pi wid : Nat) (loc : String)
    (row idx : Int) (utk : Bool) (data : AllGameData) (ps : PlayerState)
    (widx : Nat) (worker : WorkerState) (location_data : BoardActionLocation)
    (sealc : SealColor) (tk : Int) (scroll_data : AcademyScroll)
    (pbd : PersonalBoardDefinition) (worker_row_def : PersonalBoardWorkerRow)
    (hturn : gs.current_player_index = pi)
    (hps : gs.players[pi]? = some ps)
    (hfind : findIdxAndElem (fun w => w.worker_id = wid) ps.workers
      = some (widx, worker))
    (hplaced : worker.is_placed = false)
    (hloc : dictLookup data.main_board_actions loc = some location_data)
    (htype : location_data.action_type = "ACADEMY")
    (hrow : 1 ≤ row ∧ row ≤ 4) (hidx : 0 ≤ idx ∧ idx ≤ 2)
    (hgrid : gridGet? gs.academy_seals (row - 1).toNat idx.toNat
      = some (some sealc))
    (hreqstep : academyRequirementStep worker wid location_data
      ps.temporary_knowledge utk = .ok tk)
    (hscroll : dictLookup data.academy_scrolls row = some scroll_data)
    (hpb : data.personal_board = some pbd)
    (hrowdef : pbd.worker_rows.find? (fun r => r.row_index = worker.row_index)
      = some worker_row_def)
    (hfull : worker.seal_slots_filled ≥ worker_row_def.max_seals) :
    perform_academy_action gs pi wid loc row idx utk data
      = .error (.sealSlotsFull wid worker.seal_slots_filled
          worker_row_def.max_seals, gs) := by
  have hgrid' : gridGet? gs.academy_seals (row.toNat - 1) idx.toNat
      = some (some sealc) := by
    rw [show row.toNat - 1 = (row - 1).toNat by omega]
    exact hgrid
  simp [perform_academy_action, hturn, hps, hfind, hplaced, hloc, htype,
    hrow.1, hrow.2, hidx.1, hidx.2, hgrid, hgrid', hreqstep, hscroll, hpb,
    hrowdef, hfull]

theorem academy_slot_full_rejected_witness :
    perform_academy_action scenarioE_state 0 1 "ACADEMY_1" 1 0 false fixData
      = .error (.sealSlotsFull 1 3 3, scenarioE_state) :=
  academy_slot_full_rejected scenarioE_state 0 1 "ACADEMY_1" 1 0 false fixData
    (mkPlayer 0 0 fixWorkerFull) 0 fixWorkerFull fixLocation SealColor.RED 0
    fixScroll fixBoardDef fixRowDef
    rfl rfl rfl rfl rfl rfl (by decide) (by decide) rfl rfl rfl rfl rfl
    (by decide)

/-- The total wax-seal deficit as §4.2 of the spec describes it: the sum
over the requirement map of `max(0, count_needed - seals possessed)`.
This definition follows the spec's words; `check_wax_seal_req_correct`
relates it to the implementation. -/
def totalSealDeficit (worker : WorkerState)
    (requirements : List (SealColor × Nat)) : Int :=
  (requirements.map
    (fun p => max ((p.2 : Int) - (dictGetD worker.seals p.1 0 : Nat)) 0)).sum

theorem foldl_deficit_eq (worker : WorkerState)
    (reqs : List (SealColor × Nat)) (acc : Int) :
    List.foldl (fun acc p =>
      let count_possessed : Int := (dictGetD worker.seals p.1 0 : Nat)
      let deficit : Int := (p.2 : Int) - count_possessed
      if 0 < deficit then acc + deficit else acc) acc reqs
    = acc + totalSealDeficit worker reqs := by
  induction reqs generalizing acc with
  | nil => simp [totalSealDeficit]
  | cons p rest ih =>
    simp only [List.foldl_cons, totalSealDeficit, List.map_cons, List.sum_cons]
    rw [ih]
    by_cases hd : 0 < (p.2 : Int) - (dictGetD worker.seals p.1 0 : Nat)
    · rw [if_pos hd, max_eq_left hd.le]
      unfold totalSealDeficit
      ring
    · rw [if_neg hd, max_eq_right (not_lt.mp hd)]
      unfold totalSealDeficit
      ring

/-- C6 counterexample: with an empty requirement map and a negative
available substitute amount, the code's early return reports satisfiable
even though the total deficit (0) is not at most the available amount
(-1), so "satisfiable exactly when the total is <= the available
substitute" fails for every (unrestricted) available amount. -/
theorem check_wax_seal_req_negative_avail_cex :
    check_wax_seal_req fixWorkerB [] (-1) = (true, 0) ∧
    ¬ totalSealDeficit fixWorkerB [] ≤ -1 :=
  ⟨rfl, by decide⟩

/-- C6 as amended: for every worker, requirement map, and nonnegative
available substitute amount, `check_wax_seal_req` computes, for each
(color, count-needed) pair, the deficit
`max(0, count_needed - worker.seals[color])`, sums the deficits, reports
satisfiable exactly when the total is at most the available substitute,
and returns (satisfiable, the substitute amount that would be consumed) —
the amount when satisfiable, 0 when not (in which case nothing would be
consumed because the action is rejected).  The function is pure: it
returns a pair and leaves every input intact. -/
theorem check_wax_seal_req_correct (worker : WorkerState)
    (requirements : List (SealColor × Nat)) (avail : Int) (havail : 0 ≤ avail) :
    check_wax_seal_req worker requirements avail
      = (decide (totalSealDeficit worker requirements ≤ avail),
         if totalSealDeficit worker requirements ≤ avail
         then totalSealDeficit worker requirements else 0) := by
  unfold check_wax_seal_req
  by_cases hreq : requirements = []
  · subst hreq
    simp [totalSealDeficit, havail]
  · rw [if_neg hreq]
    rw [foldl_deficit_eq worker requirements 0, zero_add]
    by_cases hle : totalSealDeficit worker requirements ≤ avail
    · simp [hle]
    · simp [hle]

theorem check_wax_seal_req_correct_witness :
    (0 : Int) ≤ 2 ∧
    check_wax_seal_req fixWorkerA [(SealColor.RED, 2), (SealColor.BLUE, 1)] 2
      = (decide (totalSealDeficit fixWorkerA
            [(SealColor.RED, 2), (SealColor.BLUE, 1)] ≤ 2),
         if totalSealDeficit fixWorkerA
              [(SealColor.RED, 2), (SealColor.BLUE, 1)] ≤ 2
         then totalSealDeficit fixWorkerA [(SealColor.RED, 2), (SealColor.BLUE, 1)]
         else 0) :=
  ⟨by decide,
   check_wax_seal_req_correct fixWorkerA [(SealColor.RED, 2), (SealColor.BLUE, 1)]
     2 (by decide)⟩

/-- C7: `calculate_placement_penalty` returns 0 unless the location's
placement class is `CIRCULAR_MAGNIFYING_GLASS` and at least one worker
(from any player) already occupies it, in which case it returns the fixed
two-player penalty 3; locations of the other placement class (and
locations absent from the table) always yield 0 regardless of
occupancy. -/
theorem calculate_placement_penalty_correct (gs : GameState) (loc : String)
    (pi : Nat) (table : List (String × BoardActionLocation)) :
    (calculate_placement_penalty gs loc pi table = 3 ∨
     calculate_placement_penalty gs loc pi table = 0) ∧
    (calculate_placement_penalty gs loc pi table = 3 ↔
      ∃ d, dictLookup table loc = some d ∧
        d.placement_type = "CIRCULAR_MAGNIFYING_GLASS" ∧
        dictGetD gs.main_board_workers loc [] ≠ []) := by
  cases hl : dictLookup table loc with
  | none =>
    have h0 : calculate_placement_penalty gs loc pi table = 0 := by
      unfold calculate_placement_penalty
      rw [hl]
    refine ⟨Or.inr h0, ?_, ?_⟩
    · intro h3
      rw [h0] at h3
      exact absurd h3 (by norm_num)
    · rintro ⟨d, hd, -, -⟩
      exact absurd hd (by simp)
  | some d =>
    by_cases ht : d.placement_type = "CIRCULAR_MAGNIFYING_GLASS"
    · by_cases ho : dictGetD gs.main_board_workers loc [] = []
      · have h0 : calculate_placement_penalty gs loc pi table = 0 := by
          simp [calculate_placement_penalty, hl, ht, ho]
        refine ⟨Or.inr h0, ?_, ?_⟩
        · intro h3
          rw [h0] at h3
          exact absurd h3 (by norm_num)
        · rintro ⟨d', hd', -, ho'⟩
          exact absurd ho ho'
      · have h3 : calculate_placement_penalty gs loc pi table = 3 := by
          simp [calculate_placement_penalty, hl, ht, ho]
        exact ⟨Or.inl h3, fun _ => ⟨d, rfl, ht, ho⟩, fun _ => h3⟩
    · have h0 : calculate_placement_penalty gs loc pi table = 0 := by
        simp [calculate_placement_penalty, hl, ht]
      refine ⟨Or.inr h0, ?_, ?_⟩
      · intro h3
        rw [h0] at h3
        exact absurd h3 (by norm_num)
      · rintro ⟨d', hd', ht', -⟩
        cases Option.some.inj hd'
        exact absurd ht' ht

/-- The §4.1 check number (1-6) of the precondition whose failure each
validation error reports: 1 turn ownership, 2 worker existence, 3 worker
availability, 4 target existence and kind, 5 coordinate bounds, 6
resource presence at the chosen slot.  Later-stage errors carry no check
number. -/
def errCheckTag : EngineError → Option Nat
  | .notPlayersTurn _ => some 1
  | .workerNotFound _ _ => some 2
  | .workerAlreadyPlaced _ => some 3
  | .invalidLocationId _ => some 4
  | .notAcademyLocation _ => some 4
  | .invalidScrollRow _ => some 5
  | .invalidSealIndex _ => some 5
  | .noSealAvailable _ _ => some 6
  | _ => none

/-- The first §4.1 precondition (in the fixed order) that a request
violates, or `none` when all six hold.  `ps` is the requesting player's
record; a malformed academy grid (out-of-range coordinates despite the
bounds checks) is outside the §4.1 list and yields `none`. -/
def firstAcademyViolation (gs : GameState) (pi : Nat) (ps : PlayerState)
    (wid : Nat) (loc : String) (row idx : Int) (data : AllGameData) :
    Option Nat :=
  if gs.current_player_index ≠ pi then some 1
  else
    match findIdxAndElem (fun w => w.worker_id = wid) ps.workers with
    | none => some 2
    | some (_, w) =>
      if w.is_placed then some 3
      else
        match dictLookup data.main_board_actions loc with
        | none => some 4
        | some d =>
          if d.action_type ≠ "ACADEMY" then some 4
          else if ¬ (1 ≤ row ∧ row ≤ 4) then some 5
          else if ¬ (0 ≤ idx ∧ idx ≤ 2) then some 5
          else
            match gridGet? gs.academy_seals (row - 1).toNat idx.toNat with
            | none => none
            | some none => some 6
            | some (some _) => none

/-- C8: whenever at least one §4.1 precondition is violated (in
particular when several are), `perform_academy_action` raises the error
of the first violated precondition in the fixed order — turn ownership,
worker existence, worker availability, target existence and kind,
coordinate bounds, resource presence — with the input state untouched;
no later check's error can surface. -/
theorem academy_first_violation_reported (gs : GameState) (pi wid : Nat)
    (loc : String) (row idx : Int) (utk : Bool) (data : AllGameData)
    (ps : PlayerState) (k : Nat)
    (hps : gs.players[pi]? = some ps)
    (hk : firstAcademyViolation gs pi ps wid loc row idx data = some k) :
    ∃ e, perform_academy_action gs pi wid loc row idx utk data = .error (e, gs) ∧
      errCheckTag e = some k := by
  unfold firstAcademyViolation at hk
  split at hk
  next hturn =>
    refine ⟨.notPlayersTurn pi, ?_, by rw [← hk]; rfl⟩
    simp [perform_academy_action, hturn]
  next hturn =>
    have h1 : gs.current_player_index = pi := not_ne_iff.mp hturn
    split at hk
    next hfind =>
      refine ⟨.workerNotFound wid pi, ?_, by rw [← hk]; rfl⟩
      simp [perform_academy_action, h1, hps, hfind]
    next widx w hfind =>
      split at hk
      next hpl =>
        refine ⟨.workerAlreadyPlaced wid, ?_, by rw [← hk]; rfl⟩
        simp [perform_academy_action, h1, hps, hfind, hpl]
      next hpl =>
        have hplf : w.is_placed = false := Bool.eq_false_iff.mpr hpl
        split at hk
        next hloc =>
          refine ⟨.invalidLocationId loc, ?_, by rw [← hk]; rfl⟩
          simp [perform_academy_action, h1, hps, hfind, hplf, hloc]
        next d hloc =>
          split at hk
          next htype =>
            refine ⟨.notAcademyLocation loc, ?_, by rw [← hk]; rfl⟩
            simp [perform_academy_action, h1, hps, hfind, hplf, hloc, htype]
          next htype =>
            have htypeEq : d.action_type = "ACADEMY" := not_ne_iff.mp htype
            split at hk
            next hrow =>
              refine ⟨.invalidScrollRow row, ?_, by rw [← hk]; rfl⟩
              simp [perform_academy_action, h1, hps, hfind, hplf, hloc,
                htypeEq, hrow]
            next hrow =>
              have hrow' : 1 ≤ row ∧ row ≤ 4 := not_not.mp hrow
              split at hk
              next hidx =>
                refine ⟨.invalidSealIndex idx, ?_, by rw [← hk]; rfl⟩
                simp [perform_academy_action, h1, hps, hfind, hplf, hloc,
                  htypeEq, hrow'.1, hrow'.2, hidx]
              next hidx =>
                have hidx' : 0 ≤ idx ∧ idx ≤ 2 := not_not.mp hidx
                split at hk
                next hgrid => simp at hk
                next hgrid =>
                  have hgrid' : gridGet? gs.academy_seals (row.toNat - 1)
                      idx.toNat = some none := by
                    rw [show row.toNat - 1 = (row - 1).toNat by omega]
                    exact hgrid
                  refine ⟨.noSealAvailable row idx, ?_, by rw [← hk]; rfl⟩
                  simp [perform_academy_action, h1, hps, hfind, hplf, hloc,
                    htypeEq, hrow'.1, hrow'.2, hidx'.1, hidx'.2, hgrid, hgrid']
                next sealx hgrid => simp at hk

theorem academy_first_violation_reported_witness :
    firstAcademyViolation wrongTurnState 0 (mkPlayer 10 2 fixWorkerA) 99
        "BOGUS" 9 9 fixData = some 1 ∧
    (∃ e, perform_academy_action wrongTurnState 0 99 "BOGUS" 9 9 false fixData
        = .error (e, wrongTurnState) ∧ errCheckTag e = some 1) :=
  ⟨rfl, academy_first_violation_reported wrongTurnState 0 99 "BOGUS" 9 9 false
    fixData (mkPlayer 10 2 fixWorkerA) 1 rfl rfl⟩

/-- A state satisfying the spec's exclusivity property alone: worker 1 of
player 0 is unplaced (`is_placed = false`) even though the pair (0, 1)
already sits on ACADEMY_1.  Every pair occupies at most one location, so
`ExclusivePlacement` holds; the flag-occupancy link of `PlacementInv`
does not. -/
def staleFlagState : GameState :=
  { players := [mkPlayer 0 0 fixWorkerB], current_player_index := 0,
    academy_seals := fixGrid,
    main_board_workers := [("ACADEMY_1", [(0, 1)])] }

def staleFlagAfter : GameState :=
  afterState (perform_reserve_turn_order staleFlagState 0 1)

/-- C9 counterexample: from a state satisfying worker-placement
exclusivity (but not the flag-occupancy link), a single
`perform_reserve_turn_order` call — a valid one-step sequence — yields a
state in which the pair (0, 1) appears in two locations' occupancy
sequences, so exclusivity is not preserved from exclusivity alone. -/
theorem exclusivity_alone_not_preserved_cex :
    ExclusivePlacement staleFlagState ∧
    EngineStep staleFlagState staleFlagAfter ∧
    ¬ ExclusivePlacement staleFlagAfter := by
  refine ⟨?_, Or.inr ⟨0, 1, rfl⟩, ?_⟩
  · have hmem : ∀ (l : String) (p : Nat × Nat),
        p ∈ occupants staleFlagState l → l = "ACADEMY_1" := by
      intro l p hp
      by_cases hl : "ACADEMY_1" = l
      · exact hl.symm
      · exfalso
        simp [occupants, dictGetD, dictLookup, staleFlagState, hl] at hp
    intro l1 l2 p h1 h2
    rw [hmem l1 p h1, hmem l2 p h2]
  · intro hex
    have h1 : ((0 : Nat), (1 : Nat)) ∈ occupants staleFlagAfter "ACADEMY_1" := by
      decide
    have h2 : ((0 : Nat), (1 : Nat))
        ∈ occupants staleFlagAfter "RESERVE_TURN_ORDER" := by
      decide
    exact absurd (hex "ACADEMY_1" "RESERVE_TURN_ORDER" (0, 1) h1 h2) (by decide)

/-- C9 as amended: from a state satisfying the full placement invariant —
exclusivity, distinct worker ids per player, and the link that an
unplaced worker's pair occupies no location — every state reachable by
any sequence of `perform_academy_action` and `perform_reserve_turn_order`
calls (accepted or rejected) satisfies exclusivity (and the full
invariant). -/
theorem placement_exclusivity_preserved (gs0 gs : GameState)
    (hInv : PlacementInv gs0) (hreach : EngineReachable gs0 gs) :
    ExclusivePlacement gs ∧ PlacementInv gs :=
  ⟨(placementInv_reachable gs0 gs hInv hreach).1,
   placementInv_reachable gs0 gs hInv hreach⟩

/-- A clean two-worker-free starting state for the C9 witness. -/
def cleanState : GameState := mkState (mkPlayer 4 1 fixWorkerB)

def cleanAfter : GameState := afterState (perform_reserve_turn_order cleanState 0 1)

theorem cleanState_inv : PlacementInv cleanState := by
  refine ⟨?_, ?_, ?_⟩
  · intro l1 l2 p h1 h2
    exfalso
    simp [occupants, dictGetD, dictLookup, cleanState, mkState] at h1
  · intro pi ps hps
    cases pi with
    | zero =>
      cases Option.some.inj hps
      decide
    | succ n =>
      simp [cleanState, mkState] at hps
  · intro pi ps w hps hw hwn loc hmem
    simp [occupants, dictGetD, dictLookup, cleanState, mkState] at hmem

theorem placement_exclusivity_preserved_witness :
    ExclusivePlacement cleanAfter ∧ PlacementInv cleanAfter :=
  placement_exclusivity_preserved cleanState cleanAfter cleanState_inv
    (Relation.ReflTransGen.single (Or.inr ⟨0, 1, rfl⟩))

/-- C10: frame condition of an accepted academy action.  The only parts
of the game state that change are the acting player's record (coins,
temporary knowledge, and the chosen worker's seals, slot count and
placement flag), the target location's occupancy sequence, and the single
academy grid cell at the chosen coordinates.  Every other game-state
field, every other player, every other location's occupancy, every other
grid cell, every other worker of the acting player, every other field of
the acting player, and every other field of the chosen worker are
unchanged. -/
theorem academy_frame_condition (gs : GameState) (pi wid : Nat) (loc : String)
    (row idx : Int) (utk : Bool) (data : AllGameData) (gs' : GameState)
    (ps : PlayerState)
    (h : perform_academy_action gs pi wid loc row idx utk data = .ok gs')
    (hps : gs.players[pi]? = some ps) :
    ∃ (widx : Nat) (worker : WorkerState),
      findIdxAndElem (fun w => w.worker_id = wid) ps.workers = some (widx, worker) ∧
      gs'.current_round = gs.current_round ∧
      gs'.current_phase = gs.current_phase ∧
      gs'.current_player_index = gs.current_player_index ∧
      gs'.turn_order = gs.turn_order ∧
      gs'.available_seals = gs.available_seals ∧
      gs'.museum_state = gs.museum_state ∧
      gs'.museum_coins_taken = gs.museum_coins_taken ∧
      gs'.placed_specimens = gs.placed_specimens ∧
      gs'.hms_beagle_position = gs.hms_beagle_position ∧
      gs'.objective_deck_silver = gs.objective_deck_silver ∧
      gs'.objective_deck_gold = gs.objective_deck_gold ∧
      gs'.objective_display_silver = gs.objective_display_silver ∧
      gs'.objective_display_gold = gs.objective_display_gold ∧
      gs'.correspondence_tiles_in_play = gs.correspondence_tiles_in_play ∧
      gs'.correspondence_stamps = gs.correspondence_stamps ∧
      gs'.used_stamps = gs.used_stamps ∧
      gs'.beagle_goals_in_play = gs.beagle_goals_in_play ∧
      gs'.beagle_goals_completed = gs.beagle_goals_completed ∧
      gs'.special_action_tiles_setup = gs.special_action_tiles_setup ∧
      gs'.unlocked_locations = gs.unlocked_locations ∧
      gs'.first_player_marker_index = gs.first_player_marker_index ∧
      gs'.game_over = gs.game_over ∧
      (∀ pj : Nat, pj ≠ pi → gs'.players[pj]? = gs.players[pj]?) ∧
      (∀ l : String, l ≠ loc → occupants gs' l = occupants gs l) ∧
      (∀ r c : Nat, (r, c) ≠ ((row - 1).toNat, idx.toNat) →
        gridGet? gs'.academy_seals r c = gridGet? gs.academy_seals r c) ∧
      (∃ ps', gs'.players[pi]? = some ps' ∧
        ps'.player_index = ps.player_index ∧
        ps'.player_color = ps.player_color ∧
        ps'.vp_marker_value = ps.vp_marker_value ∧
        ps'.ship_position = ps.ship_position ∧
        ps'.evolution_marker_position = ps.evolution_marker_position ∧
        ps'.explorers_available = ps.explorers_available ∧
        ps'.explorers_placed = ps.explorers_placed ∧
        ps'.tents_available = ps.tents_available ∧
        ps'.tents_placed = ps.tents_placed ∧
        ps'.stamps_available = ps.stamps_available ∧
        ps'.researched_specimens = ps.researched_specimens ∧
        ps'.objective_tiles_in_reserve = ps.objective_tiles_in_reserve ∧
        ps'.objective_slots_filled = ps.objective_slots_filled ∧
        ps'.crew_cards_assigned_starting = ps.crew_cards_assigned_starting ∧
        ps'.lenses_available = ps.lenses_available ∧
        ps'.lenses_placed = ps.lenses_placed ∧
        ps'.beagle_goals_scored_vp = ps.beagle_goals_scored_vp ∧
        ps'.has_free_academy_scroll_penalty_waiver
          = ps.has_free_academy_scroll_penalty_waiver ∧
        ps'.extra_book_multiplier = ps.extra_book_multiplier ∧
        ps'.diary_penalty_reduction = ps.diary_penalty_reduction ∧
        ps'.max_lag_penalty = ps.max_lag_penalty ∧
        (∀ j : Nat, j ≠ widx → ps'.workers[j]? = ps.workers[j]?) ∧
        (∃ w', ps'.workers[widx]? = some w' ∧
          w'.worker_id = worker.worker_id ∧
          w'.row_index = worker.row_index ∧
          w'.assigned_crew_card_id = worker.assigned_crew_card_id)) := by
  obtain ⟨hturn, ps0, widx, worker, location_data, sealc, tk, scroll_data, pbd,
    worker_row_def, seal_slot_def, ps2, hps0, hfind, hplaced, hloc, htype, hrow,
    hidx, hgrid, hreqstep, hscroll, hpb, hrowdef, hfull, hslot, hafford, htk,
    hspend, hgs'⟩ := academy_ok_shape _ _ _ _ _ _ _ _ _ h
  rw [hps] at hps0
  cases Option.some.inj hps0
  have hlen : pi < gs.players.length := (List.getElem?_eq_some.mp hps).1
  obtain ⟨hwidx, -⟩ := findIdxAndElem_some _ _ _ _ hfind
  have hwlen : widx < ps.workers.length := (List.getElem?_eq_some.mp hwidx).1
  have hps2 : ps2 = { ps with
      coins := ps.coins - (calculate_placement_penalty gs loc pi
        data.main_board_actions + scroll_data.cost + seal_slot_def.placement_cost) }
      ∨ ps2 = ps := by
    rcases spend_coins_ok_shape _ _ _ hspend with h' | ⟨-, h'⟩
    · exact Or.inl h'
    · exact Or.inr h'
  subst hgs'
  refine ⟨widx, worker, hfind, rfl, rfl, rfl, rfl, rfl, rfl, rfl, rfl, rfl,
    rfl, rfl, rfl, rfl, rfl, rfl, rfl, rfl, rfl, rfl, rfl, rfl, rfl,
    ?_, ?_, ?_, ?_⟩
  · intro pj hj
    show (gs.players.set pi _)[pj]? = gs.players[pj]?
    exact List.getElem?_set_ne (fun hc => hj hc.symm)
  · intro l hl
    show dictGetD (dictSetdefaultAppend gs.main_board_workers loc (pi, wid)) l []
      = dictGetD gs.main_board_workers l []
    exact dictGetD_setdefaultAppend_ne _ _ _ _ hl
  · intro r c hrc
    exact gridGet?_gridSet_ne _ _ _ _ _ _ hrc
  · rcases hps2 with h' | h' <;>
    · subst h'
      refine ⟨_, List.getElem?_set_self hlen, rfl, rfl, rfl, rfl, rfl, rfl, rfl,
        rfl, rfl, rfl, rfl, rfl, rfl, rfl, rfl, rfl, rfl, rfl, rfl, rfl, rfl,
        ?_, ?_⟩
      · intro j hj
        exact List.getElem?_set_ne (fun hc => hj hc.symm)
      · exact ⟨academyWorkerUpdate worker sealc, List.getElem?_set_self hwlen,
          rfl, rfl, rfl⟩

theorem academy_frame_condition_witness :
    scenarioA_after.current_round = scenarioA_state.current_round ∧
    scenarioA_after.turn_order = scenarioA_state.turn_order ∧
    scenarioA_after.players[1]? = scenarioA_state.players[1]? ∧
    occupants scenarioA_after "RESERVE_TURN_ORDER"
      = occupants scenarioA_state "RESERVE_TURN_ORDER" := by
  obtain ⟨widx, worker, -, hcr, -, -, hto, -, -, -, -, -, -, -, -, -, -, -,
    -, -, -, -, -, -, -, hpNe, hlNe, -, -⟩ :=
    academy_frame_condition scenarioA_state 0 1 "ACADEMY_1" 1 0 false fixData
      scenarioA_after (mkPlayer 10 2 fixWorkerA) rfl rfl
  exact ⟨hcr, hto, hpNe 1 (by decide), hlNe "RESERVE_TURN_ORDER" (by decide)⟩
